import Mathlib

/-!
Verification of the state-management and persistence core of the TodoList
component (src/app/components/TodoList.tsx, with a feature-subset duplicate
in src/unnamed/part_000).

Embedding notes.
* An `Item`/todo is a record of `id`, `text`, `completed`, embedded as the
  structure `Todo` below.
* The browser platform (localStorage, JSON.stringify / JSON.parse) is not
  repository code.  It is modelled at the level of parsed JSON values:
  `JsValue` is the type of JavaScript JSON values, a stored string is a
  `Blob` (either a string that parses to a given `JsValue`, or a string on
  which `JSON.parse` throws), and `Store` is the state of the platform store
  at the single fixed key `STORAGE_KEY` (window absent, storage access
  throwing, or available with an optional stored blob).  The JSON library
  contract `JSON.parse (JSON.stringify v) = v` is what folds the string
  layer away.
* `generateId` in the source draws platform randomness
  (`crypto.randomUUID()` with a `Date.now`/`Math.random` fallback), so the
  freshly generated id is passed to `addTodo` as an explicit argument.
* React state updates (`setTodos` etc.) become explicit state passing on the
  component-state record `CState`; the two `useEffect` hooks become the
  `loadEffect` step and the save effect inside `commit` of the transition
  system `Step` used for the startup-ordering property.
-/

namespace TodoApp

/-- A todo item: `type Todo = ... id: string; text: string; completed: boolean ...`. -/
structure Todo where
  id : String
  text : String
  completed : Bool
deriving DecidableEq, Repr

/-- The filter selector: `type Filter = "all" | "active" | "completed"`. -/
inductive Filter where
  | all
  | active
  | completed
deriving DecidableEq, Repr

/-- The fixed storage key: `const STORAGE_KEY = "todos"`. -/
def STORAGE_KEY : String := "todos"

/-- A JavaScript JSON value, the result of a successful `JSON.parse`.
Numbers are kept as their raw literal text; no claim depends on numeric
semantics. -/
inductive JsValue where
  | str : String → JsValue
  | bool : Bool → JsValue
  | num : String → JsValue
  | arr : List JsValue → JsValue
  | obj : List (String × JsValue) → JsValue
  | null : JsValue

/-- A string blob held in the store, abstracted by how `JSON.parse` treats
it: `json v` is any string that parses to the value `v` (in particular the
output of `JSON.stringify` on `v`), and `invalid` is any string on which
`JSON.parse` throws.  The empty string behaves like `invalid` here: the
source short-circuits on falsy `stored` and `JSON.parse ""` throws, and both
paths return the empty array. -/
inductive Blob where
  | json : JsValue → Blob
  | invalid : Blob

/-- State of the platform store at `STORAGE_KEY`: `noWindow` models
`typeof window === "undefined"`, `throwing` models `localStorage` access
raising (storage disabled, quota), and `avail b` is an available store whose
value at the key is `b` (`none` when the key is absent). -/
inductive Store where
  | noWindow : Store
  | throwing : Store
  | avail : Option Blob → Store

/-- The JSON value `JSON.stringify` produces for one todo: an object with
the three fields in declaration order. -/
def encodeTodo (t : Todo) : JsValue :=
  JsValue.obj [("id", JsValue.str t.id), ("text", JsValue.str t.text),
               ("completed", JsValue.bool t.completed)]

/-- The JSON value `JSON.stringify` produces for a todo array. -/
def encodeTodos (todos : List Todo) : JsValue :=
  JsValue.arr (todos.map encodeTodo)

/-- Reads a JSON value back as one todo record, the interpretation used to
state that a loaded value "is" a collection: exactly an object with the
three expected fields. -/
def decodeTodo : JsValue → Option Todo
  | JsValue.obj [("id", JsValue.str i), ("text", JsValue.str t),
                 ("completed", JsValue.bool c)] => some ⟨i, t, c⟩
  | _ => none

/-- Reads a list of JSON values back as a todo list, elementwise. -/
def decodeTodoList : List JsValue → Option (List Todo)
  | [] => some []
  | v :: vs =>
    match decodeTodo v, decodeTodoList vs with
    | some t, some ts => some (t :: ts)
    | _, _ => none

/-- Reads a JSON value back as a collection (an array of well-formed todo
records), `none` when the value has any other shape. -/
def asTodoArray : JsValue → Option (List Todo)
  | JsValue.arr vs => decodeTodoList vs
  | _ => none

/-- `loadTodosFromStorage` of the source, as a function of the store state.
`typeof window === "undefined"` returns `[]`; a throwing store is caught by
the `try`/`catch` and returns `[]`; an absent key makes `stored` null and
returns `[]`; an unparseable blob makes `JSON.parse` throw, caught to `[]`;
otherwise the raw result of `JSON.parse(stored)` is returned with no shape
validation.  The function is total: no error propagates to the caller. -/
def loadTodosFromStorage : Store → JsValue
  | Store.noWindow => JsValue.arr []
  | Store.throwing => JsValue.arr []
  | Store.avail none => JsValue.arr []
  | Store.avail (some Blob.invalid) => JsValue.arr []
  | Store.avail (some (Blob.json v)) => v

/-- `saveTodosToStorage` of the source: a no-op without a window, a
swallowed failure when storage access throws, and otherwise overwrites the
blob at the key with `JSON.stringify(todos)`. -/
def saveTodosToStorage (todos : List Todo) : Store → Store
  | Store.noWindow => Store.noWindow
  | Store.throwing => Store.throwing
  | Store.avail _ => Store.avail (some (Blob.json (encodeTodos todos)))

theorem decodeTodoList_encode (todos : List Todo) :
    decodeTodoList (todos.map encodeTodo) = some todos := by
  induction todos with
  | nil => rfl
  | cons t ts ih => simp [decodeTodoList, decodeTodo, encodeTodo, ih]

/-- Models the JavaScript platform primitive `String.prototype.trim`:
drops leading and trailing whitespace.  (JS trims the full Unicode
whitespace set; the whitespace predicate here is `Char.isWhitespace`, which
covers the characters the claims exercise.  Every claim about trimming is
parametric in whether the trimmed result is empty, so the exact whitespace
set is immaterial.)  Defined by structural recursion over the character
list so that concrete witnesses evaluate in the kernel. -/
def jsTrim (s : String) : String :=
  String.mk
    (((s.data.dropWhile Char.isWhitespace).reverse.dropWhile
        Char.isWhitespace).reverse)

/-- The component state of `TodoList`: the six `useState` hooks `todos`,
`inputValue`, `filter`, `editingId`, `editValue`, `hasLoaded`. -/
structure CState where
  todos : List Todo
  inputValue : String
  filter : Filter
  editingId : Option String
  editValue : String
  hasLoaded : Bool
deriving DecidableEq, Repr

/-- The initial hook values: empty list, empty strings, filter `all`, no
item being edited, not yet loaded. -/
def initialState : CState :=
  { todos := [], inputValue := "", filter := Filter.all,
    editingId := none, editValue := "", hasLoaded := false }

/-- `addTodo` of the source.  The freshly generated id (`generateId()`,
platform randomness) is an explicit argument.  When `inputValue.trim()` is
truthy (non-empty), a new todo with the trimmed text and `completed: false`
is appended and the input is cleared; otherwise nothing happens. -/
def addTodo (freshId : String) (s : CState) : CState :=
  if jsTrim s.inputValue ≠ "" then
    { s with
      todos := s.todos ++
        [{ id := freshId, text := jsTrim s.inputValue, completed := false }],
      inputValue := "" }
  else s

/-- `toggleTodo` of the source: maps over the todos, flipping `completed`
on the item whose id matches. -/
def toggleTodo (id : String) (s : CState) : CState :=
  { s with
    todos := s.todos.map fun todo =>
      if todo.id == id then { todo with completed := !todo.completed }
      else todo }

/-- `deleteTodo` of the source: keeps the todos whose id differs. -/
def deleteTodo (id : String) (s : CState) : CState :=
  { s with todos := s.todos.filter fun todo => todo.id != id }

/-- `startEdit` of the source: unconditionally enters the edit session for
the given todo.  The completed-item guard lives in the view, see
`editButtonClick` and `textDoubleClick`. -/
def startEdit (todo : Todo) (s : CState) : CState :=
  { s with editingId := some todo.id, editValue := todo.text }

/-- `cancelEdit` of the source: leaves the edit session, clearing the
scratch buffer. -/
def cancelEdit (s : CState) : CState :=
  { s with editingId := none, editValue := "" }

/-- `saveEdit` of the source: when the scratch buffer trims non-empty, the
matching item's text is replaced by the trimmed scratch text and the edit
session ends; otherwise `cancelEdit` runs. -/
def saveEdit (id : String) (s : CState) : CState :=
  if jsTrim s.editValue ≠ "" then
    { s with
      todos := s.todos.map fun todo =>
        if todo.id == id then { todo with text := jsTrim s.editValue }
        else todo,
      editingId := none, editValue := "" }
  else cancelEdit s

/-- The Edit button of the view: it is rendered with
`disabled=todo.completed`, so a click reaches `startEdit` only when the
item is not completed (a disabled button fires no click handler). -/
def editButtonClick (todo : Todo) (s : CState) : CState :=
  if todo.completed then s else startEdit todo s

/-- The text double-click of the view:
`onDoubleClick` runs `!todo.completed && startEdit(todo)`, so `startEdit`
runs only when the item is not completed. -/
def textDoubleClick (todo : Todo) (s : CState) : CState :=
  if todo.completed then s else startEdit todo s

/-- `filteredTodos` of the source, as a function of the filter and the
collection: `active` keeps the non-completed items, `completed` the
completed ones, anything else keeps all. -/
def filteredTodos (filter : Filter) (todos : List Todo) : List Todo :=
  todos.filter fun todo =>
    match filter with
    | Filter.active => !todo.completed
    | Filter.completed => todo.completed
    | Filter.all => true

/-- `activeCount` of the source: the number of non-completed items. -/
def activeCount (todos : List Todo) : Nat :=
  (todos.filter fun todo => !todo.completed).length

/-- A user intent reaching the coordinator through the view: the add
button / Enter key (carrying the id `generateId()` would produce), the
checkbox, the delete button, the Edit button, the text double-click,
Enter / blur in the edit field, Escape in the edit field, and the three
controlled-input changes. -/
inductive UserEvent where
  | addClick (freshId : String)
  | toggleClick (id : String)
  | deleteClick (id : String)
  | editClick (todo : Todo)
  | spanDoubleClick (todo : Todo)
  | editCommit (id : String)
  | editEscape
  | inputChange (value : String)
  | filterChange (f : Filter)
  | editChange (value : String)

/-- Dispatches one user event to the corresponding handler of the source. -/
def applyEvent : UserEvent → CState → CState
  | UserEvent.addClick freshId, s => addTodo freshId s
  | UserEvent.toggleClick id, s => toggleTodo id s
  | UserEvent.deleteClick id, s => deleteTodo id s
  | UserEvent.editClick todo, s => editButtonClick todo s
  | UserEvent.spanDoubleClick todo, s => textDoubleClick todo s
  | UserEvent.editCommit id, s => saveEdit id s
  | UserEvent.editEscape, s => cancelEdit s
  | UserEvent.inputChange v, s => { s with inputValue := v }
  | UserEvent.filterChange f, s => { s with filter := f }
  | UserEvent.editChange v, s => { s with editValue := v }

/-- Whole-system state for the startup-ordering property: the component
state, the platform store, and a log of every collection the save effect
has written (newest first). -/
structure System where
  comp : CState
  store : Store
  writes : List (List Todo)

/-- One React commit: the component state becomes `next`, then the save
effect (`useEffect` with deps `[todos, hasLoaded]`) runs when one of its
deps changed, and inside it `if (hasLoaded) saveTodosToStorage(todos)`
writes only when `hasLoaded` is true. -/
def commit (sys : System) (next : CState) : System :=
  if (next.todos ≠ sys.comp.todos ∨ next.hasLoaded ≠ sys.comp.hasLoaded)
      ∧ next.hasLoaded then
    { comp := next,
      store := saveTodosToStorage next.todos sys.store,
      writes := next.todos :: sys.writes }
  else { sys with comp := next }

/-- The mount effect of the source (`useEffect` with deps `[]`): loads from
the store, sets `todos` to the loaded value and `hasLoaded` to true.  The
loaded `JsValue` is read back through `asTodoArray` because `todos` is
typed as a collection (`Todo[]` in the source); the startup-ordering claim
is independent of which value is loaded. -/
def loadEffect (store : Store) (s : CState) : CState :=
  { s with
    todos := (asTodoArray (loadTodosFromStorage store)).getD [],
    hasLoaded := true }

/-- One step of the coordinator: either the one-time mount effect runs
(possible only while `hasLoaded` is false, since the `[]` deps never fire
it again and nothing resets `hasLoaded`), or a user event is dispatched.
Each step ends with the React commit, which may run the save effect. -/
inductive Step : System → System → Prop where
  | load : ∀ sys, sys.comp.hasLoaded = false →
      Step sys (commit sys (loadEffect sys.store sys.comp))
  | user : ∀ sys (e : UserEvent), Step sys (commit sys (applyEvent e sys.comp))

/-- The system started with platform store `store` and the initial hook
values, with no write performed yet. -/
def initSystem (store : Store) : System :=
  { comp := initialState, store := store, writes := [] }

/-- Reachability of the coordinator from a start state. -/
inductive Reachable (start : System) : System → Prop where
  | refl : Reachable start start
  | tail : ∀ {a b : System}, Reachable start a → Step a b → Reachable start b

theorem applyEvent_hasLoaded (e : UserEvent) (s : CState) :
    (applyEvent e s).hasLoaded = s.hasLoaded := by
  cases e <;>
    simp [applyEvent, addTodo, toggleTodo, deleteTodo, editButtonClick,
      textDoubleClick, startEdit, saveEdit, cancelEdit] <;>
    split <;> rfl

theorem commit_comp (sys : System) (next : CState) :
    (commit sys next).comp = next := by
  unfold commit; split <;> rfl

theorem commit_of_not_loaded (sys : System) (next : CState)
    (h : next.hasLoaded = false) :
    (commit sys next).store = sys.store ∧
    (commit sys next).writes = sys.writes := by
  unfold commit
  rw [if_neg]
  · exact ⟨rfl, rfl⟩
  · intro hc
    rw [h] at hc
    exact Bool.false_ne_true hc.2

/-- Sample data reused by the concrete witnesses below. -/
def sampleTodoA : Todo := { id := "a-1", text := "Buy milk", completed := false }

/-- A completed sample item. -/
def sampleTodoB : Todo := { id := "b-2", text := "Walk dog", completed := true }

/-- A sample component state with two items, pending input and pending
scratch text. -/
def sampleState : CState :=
  { todos := [sampleTodoA, sampleTodoB], inputValue := " Feed cat ",
    filter := Filter.all, editingId := none, editValue := " Walk cat ",
    hasLoaded := true }

/-- C1: for every well-formed collection `C` and every prior content `b` of
an available store, saving `C` and then loading yields a collection equal
to `C`: the loaded JSON value reads back as exactly the list `C`, so item
order and all three fields are preserved.  (When the platform store is
absent, `saveTodosToStorage` is a no-op by design — spec section 4.1 — so
the round trip quantifies over available stores.) -/
theorem c1_persist_roundtrip (C : List Todo) (b : Option Blob) :
    asTodoArray (loadTodosFromStorage (saveTodosToStorage C (Store.avail b)))
      = some C := by
  simp [saveTodosToStorage, loadTodosFromStorage, asTodoArray, encodeTodos,
    decodeTodoList_encode]

/-- C2 counterexample: the stored blob a string such as "()" replaced by
braces — valid JSON, but an object, not an array of records — fails to
deserialize into the expected shape, yet `loadTodosFromStorage` returns the
parsed object as-is: the result is not the empty collection (the JSON value
of `[]`), and does not read back as any collection at all. -/
theorem c2_counterexample_wrong_shape :
    loadTodosFromStorage (Store.avail (some (Blob.json (JsValue.obj []))))
        ≠ encodeTodos [] ∧
    asTodoArray
        (loadTodosFromStorage (Store.avail (some (Blob.json (JsValue.obj [])))))
      = none := by
  refine ⟨?_, rfl⟩
  simp [loadTodosFromStorage, encodeTodos]

/-- C2 amended: `load` is total (never raises) and returns the empty
collection when the store is unavailable, access throws, the key is absent,
or the blob is not syntactically valid JSON; but a blob that parses as JSON
is returned as the parsed value with no shape validation, so a wrong-shape
blob is not replaced by the empty collection. -/
theorem c2_amended_load_failures :
    loadTodosFromStorage Store.noWindow = encodeTodos [] ∧
    loadTodosFromStorage Store.throwing = encodeTodos [] ∧
    loadTodosFromStorage (Store.avail none) = encodeTodos [] ∧
    loadTodosFromStorage (Store.avail (some Blob.invalid)) = encodeTodos [] ∧
    ∀ v, loadTodosFromStorage (Store.avail (some (Blob.json v))) = v :=
  ⟨rfl, rfl, rfl, rfl, fun _ => rfl⟩

/-- C3: in every reachable system state in which the initial load has not
yet completed (`hasLoaded = false`), the save-effect write log is empty and
the store still holds its initial content — no save occurs before the one
initial load, so the empty initial in-memory collection never overwrites a
non-empty persisted blob. -/
theorem c3_no_save_before_load (store : Store) (sys : System)
    (hreach : Reachable (initSystem store) sys)
    (hnot : sys.comp.hasLoaded = false) :
    sys.writes = [] ∧ sys.store = store := by
  induction hreach with
  | refl => exact ⟨rfl, rfl⟩
  | tail hr hs ih =>
    rename_i a b
    cases hs with
    | load hl =>
      rw [commit_comp] at hnot
      simp [loadEffect] at hnot
    | user e =>
      rw [commit_comp, applyEvent_hasLoaded] at hnot
      have hprev := ih hnot
      have hc := commit_of_not_loaded a (applyEvent e a.comp)
        (by rw [applyEvent_hasLoaded]; exact hnot)
      exact ⟨hc.2 ▸ hprev.1, hc.1 ▸ hprev.2⟩

/-- C3 witness: after one concrete user step (typing into the input) from a
start whose store holds a non-empty persisted blob, the load has not
happened, no write has been logged and the store is untouched. -/
theorem c3_no_save_before_load_witness :
    (Reachable (initSystem (Store.avail (some (Blob.json (encodeTodos [sampleTodoA])))))
        (commit (initSystem (Store.avail (some (Blob.json (encodeTodos [sampleTodoA])))))
          (applyEvent (UserEvent.inputChange "Walk dog")
            (initSystem (Store.avail (some (Blob.json (encodeTodos [sampleTodoA]))))).comp) ) ∧
      (commit (initSystem (Store.avail (some (Blob.json (encodeTodos [sampleTodoA])))))
          (applyEvent (UserEvent.inputChange "Walk dog")
            (initSystem (Store.avail (some (Blob.json (encodeTodos [sampleTodoA]))))).comp)).comp.hasLoaded
        = false) ∧
    (commit (initSystem (Store.avail (some (Blob.json (encodeTodos [sampleTodoA])))))
        (applyEvent (UserEvent.inputChange "Walk dog")
          (initSystem (Store.avail (some (Blob.json (encodeTodos [sampleTodoA]))))).comp)).writes
      = [] ∧
    (commit (initSystem (Store.avail (some (Blob.json (encodeTodos [sampleTodoA])))))
        (applyEvent (UserEvent.inputChange "Walk dog")
          (initSystem (Store.avail (some (Blob.json (encodeTodos [sampleTodoA]))))).comp)).store
      = Store.avail (some (Blob.json (encodeTodos [sampleTodoA]))) :=
  ⟨⟨Reachable.tail Reachable.refl
      (Step.user _ (UserEvent.inputChange "Walk dog")), by decide⟩,
    c3_no_save_before_load _ _
      (Reachable.tail Reachable.refl
        (Step.user _ (UserEvent.inputChange "Walk dog")))
      (by decide)⟩

/-- C4: when the input trims non-empty, `addTodo` appends exactly one new
item at the end, carrying the trimmed text, `completed = false` and the
freshly generated id; hence the length and the active count each grow by
one. -/
theorem c4_add_appends (s : CState) (freshId : String)
    (h : jsTrim s.inputValue ≠ "") :
    (addTodo freshId s).todos =
      s.todos ++
        [{ id := freshId, text := jsTrim s.inputValue, completed := false }] ∧
    (addTodo freshId s).todos.length = s.todos.length + 1 ∧
    activeCount (addTodo freshId s).todos = activeCount s.todos + 1 := by
  refine ⟨?_, ?_, ?_⟩ <;>
    simp [addTodo, h, activeCount, List.filter_append]

/-- C4 witness: adding " Feed cat " to the two-item sample state appends
one active item with the trimmed text. -/
theorem c4_add_appends_witness :
    jsTrim sampleState.inputValue ≠ "" ∧
    ((addTodo "f-3" sampleState).todos =
      sampleState.todos ++
        [{ id := "f-3", text := jsTrim sampleState.inputValue,
           completed := false }] ∧
    (addTodo "f-3" sampleState).todos.length = sampleState.todos.length + 1 ∧
    activeCount (addTodo "f-3" sampleState).todos
      = activeCount sampleState.todos + 1) :=
  ⟨by decide, c4_add_appends sampleState "f-3" (by decide)⟩

/-- C5: toggling the same id twice restores the collection (stated, as in
the claim, for an id present in the collection), and toggling an id that
matches no item leaves the collection unchanged. -/
theorem c5_toggle_involution (s : CState) (id : String) :
    ((∃ t ∈ s.todos, t.id = id) →
      (toggleTodo id (toggleTodo id s)).todos = s.todos) ∧
    ((∀ t ∈ s.todos, t.id ≠ id) → (toggleTodo id s).todos = s.todos) := by
  constructor
  · intro _
    simp only [toggleTodo, List.map_map]
    apply List.map_id''
    intro t
    cases t with
    | mk i x c => by_cases hi : (i == id) <;> simp [hi, Function.comp]
  · intro hnone
    simp only [toggleTodo]
    have hpt : ∀ t ∈ s.todos,
        (if t.id == id then { t with completed := !t.completed } else t)
          = (fun a => a) t := by
      intro t ht
      have : (t.id == id) = false := by
        simp [hnone t ht]
      simp [this]
    rw [List.map_congr_left hpt, List.map_id']

/-- C5 witness: in the sample state, toggling the id of the first item
twice restores the collection, and toggling an unknown id changes
nothing. -/
theorem c5_toggle_involution_witness :
    ((∃ t ∈ sampleState.todos, t.id = "a-1") ∧
      (toggleTodo "a-1" (toggleTodo "a-1" sampleState)).todos
        = sampleState.todos) ∧
    ((∀ t ∈ sampleState.todos, t.id ≠ "zzz") ∧
      (toggleTodo "zzz" sampleState).todos = sampleState.todos) :=
  ⟨⟨by decide, (c5_toggle_involution sampleState "a-1").1 (by decide)⟩,
    ⟨by decide, (c5_toggle_involution sampleState "zzz").2 (by decide)⟩⟩

/-- C6: the `all` view is the collection itself (hence same length); the
`active` view holds exactly the non-completed items and the `completed`
view exactly the completed ones; the two partition the collection (per-item
occurrence counts add up); and each view is a sublist of the collection, so
relative order inside every view matches collection order. -/
theorem c6_filter_views (C : List Todo) :
    filteredTodos Filter.all C = C ∧
    (∀ t, t ∈ filteredTodos Filter.active C ↔ t ∈ C ∧ t.completed = false) ∧
    (∀ t, t ∈ filteredTodos Filter.completed C ↔ t ∈ C ∧ t.completed = true) ∧
    (∀ t, (filteredTodos Filter.active C).count t
        + (filteredTodos Filter.completed C).count t = C.count t) ∧
    List.Sublist (filteredTodos Filter.active C) C ∧
    List.Sublist (filteredTodos Filter.completed C) C ∧
    List.Sublist (filteredTodos Filter.all C) C := by
  refine ⟨?_, ?_, ?_, ?_, List.filter_sublist C, List.filter_sublist C,
    List.filter_sublist C⟩
  · simp [filteredTodos]
  · intro t
    simp [filteredTodos, List.mem_filter]
  · intro t
    simp [filteredTodos, List.mem_filter]
  · intro t
    by_cases h : t.completed
    · have hact : t ∉ filteredTodos Filter.active C := by
        simp [filteredTodos, List.mem_filter, h]
      rw [List.count_eq_zero.mpr hact, Nat.zero_add]
      exact List.count_filter (by simp [h])
    · have hcom : t ∉ filteredTodos Filter.completed C := by
        simp [filteredTodos, List.mem_filter, h]
      rw [List.count_eq_zero.mpr hcom, Nat.add_zero]
      exact List.count_filter (by simp [h])

/-- C7: blank (empty or whitespace-only) input makes `addTodo` a complete
no-op, and a blank scratch buffer makes the edit commit leave the
collection unchanged: invalid input degrades to doing nothing, no error is
raised. -/
theorem c7_blank_input_noop (s : CState) (freshId id : String)
    (h1 : jsTrim s.inputValue = "") (h2 : jsTrim s.editValue = "") :
    addTodo freshId s = s ∧ (saveEdit id s).todos = s.todos := by
  constructor
  · simp [addTodo, h1]
  · simp [saveEdit, h2, cancelEdit]

/-- C7 witness: on the initial state (empty input, empty scratch buffer)
adding and committing are no-ops on the collection. -/
theorem c7_blank_input_noop_witness :
    jsTrim initialState.inputValue = "" ∧
    jsTrim initialState.editValue = "" ∧
    (addTodo "n-1" initialState = initialState ∧
      (saveEdit "a-1" initialState).todos = initialState.todos) :=
  ⟨by decide, by decide,
    c7_blank_input_noop initialState "n-1" "a-1" (by decide) (by decide)⟩

/-- C8: deleting the freshly added item's id from the result of an add
restores the original collection, provided the fresh id does not occur in
the collection (which the claim grants for generated ids). -/
theorem c8_remove_add_roundtrip (s : CState) (freshId : String)
    (h : jsTrim s.inputValue ≠ "")
    (hfresh : ∀ t ∈ s.todos, t.id ≠ freshId) :
    (deleteTodo freshId (addTodo freshId s)).todos = s.todos := by
  simp only [addTodo, if_pos h, deleteTodo, List.filter_append]
  rw [List.filter_eq_self.mpr fun t ht => by simp [hfresh t ht]]
  simp

/-- C8 witness: adding "Feed cat" to the sample state with the fresh id
"f-9" (absent from the sample ids) and then deleting that id restores the
sample collection. -/
theorem c8_remove_add_roundtrip_witness :
    jsTrim sampleState.inputValue ≠ "" ∧
    (∀ t ∈ sampleState.todos, t.id ≠ "f-9") ∧
    (deleteTodo "f-9" (addTodo "f-9" sampleState)).todos = sampleState.todos :=
  ⟨by decide, by decide,
    c8_remove_add_roundtrip sampleState "f-9" (by decide) (by decide)⟩

/-- C9: the view lets `startEdit` run only for non-completed items — the
Edit button is disabled and the double-click handler is guarded when
`completed` is true, so invoking either entry point on a completed item
leaves the state unchanged (no Editing transition); on a non-completed item
the edit session for that item's id and text begins. -/
theorem c9_startEdit_guard (s : CState) (todo : Todo) :
    (todo.completed = true →
      editButtonClick todo s = s ∧ textDoubleClick todo s = s) ∧
    (todo.completed = false →
      editButtonClick todo s = startEdit todo s ∧
      (editButtonClick todo s).editingId = some todo.id ∧
      (editButtonClick todo s).editValue = todo.text) := by
  constructor <;> intro h <;>
    simp [editButtonClick, textDoubleClick, startEdit, h]

/-- C9 witness: the completed sample item is rejected by both entry points;
the active sample item enters editing with its id and text. -/
theorem c9_startEdit_guard_witness :
    (sampleTodoB.completed = true ∧
      (editButtonClick sampleTodoB sampleState = sampleState ∧
        textDoubleClick sampleTodoB sampleState = sampleState)) ∧
    (sampleTodoA.completed = false ∧
      (editButtonClick sampleTodoA sampleState = startEdit sampleTodoA sampleState ∧
        (editButtonClick sampleTodoA sampleState).editingId = some sampleTodoA.id ∧
        (editButtonClick sampleTodoA sampleState).editValue = sampleTodoA.text)) :=
  ⟨⟨by decide, (c9_startEdit_guard sampleState sampleTodoB).1 (by decide)⟩,
    ⟨by decide, (c9_startEdit_guard sampleState sampleTodoA).2 (by decide)⟩⟩

/-- C10: committing an edit against an id matching no item leaves the
collection unchanged, and the edit session ends with the scratch buffer
cleared — in both the non-empty-scratch branch (the map touches nothing)
and the blank-scratch branch (`cancelEdit`).  No item is created or
modified. -/
theorem c10_saveEdit_missing_id (s : CState) (id : String)
    (hmiss : ∀ t ∈ s.todos, t.id ≠ id) :
    (saveEdit id s).todos = s.todos ∧
    (saveEdit id s).editingId = none ∧
    (saveEdit id s).editValue = "" := by
  have hmap : ∀ t ∈ s.todos,
      (if t.id == id then { t with text := jsTrim s.editValue } else t)
        = (fun a => a) t := by
    intro t ht
    have hne : (t.id == id) = false := by simp [hmiss t ht]
    simp [hne]
  unfold saveEdit
  split
  · refine ⟨?_, rfl, rfl⟩
    show s.todos.map _ = s.todos
    rw [List.map_congr_left hmap, List.map_id']
  · exact ⟨rfl, rfl, rfl⟩

/-- C10 witness: committing with the sample scratch text against the
unknown id "zzz" leaves the sample collection unchanged and ends the edit
session. -/
theorem c10_saveEdit_missing_id_witness :
    (∀ t ∈ sampleState.todos, t.id ≠ "zzz") ∧
    ((saveEdit "zzz" sampleState).todos = sampleState.todos ∧
      (saveEdit "zzz" sampleState).editingId = none ∧
      (saveEdit "zzz" sampleState).editValue = "") :=
  ⟨by decide, c10_saveEdit_missing_id sampleState "zzz" (by decide)⟩

end TodoApp
